import Mathlib

/-!
Verification of the plastic-manufacturing REST API (machines, production
runs, employees, quality checks) against its natural-language specification.

The JavaScript route handlers, controllers and Mongoose schemas are shallowly
embedded as pure Lean functions over explicit list-backed stores.  Stateful
handlers take the store and return a structured response together with the
new store.  MongoDB / Mongoose behaviour relevant to the claims is made
explicit:

* `findById` throws a `CastError` when the supplied string cannot be cast to
  an ObjectId (anything that is neither 24 hex characters nor 12 characters
  long); this is modelled with `Except`, and each handler's `catch` clause is
  reproduced (500 for most handlers, 400 for the production-run and machine
  PUT handlers whose final catch uses status 400).
* `findById(undefined)` (an absent body field) is treated by Mongoose as
  `findOne({_id: null})` and resolves to `null`, never throwing.
* Mongoose setters (`trim`, `lowercase`) run before validators; validators
  collect one error per offending path, and the unique indexes raise error
  code 11000 which handlers translate to a 400 duplicate response.
* read-time `populate` joins only change the presentation of reference
  fields in the JSON payload; they are not modelled because no claim depends
  on the joined summaries.
-/

namespace PlasticAPI

/-! ### Character and string predicates used by the JavaScript handlers -/

/-- JavaScript `\w`: ASCII letters, digits and underscore. -/
def isWordChar (c : Char) : Bool := c.isAlpha || c.isDigit || c == '_'

def isHexChar (c : Char) : Bool :=
  c.isDigit || ('a' ≤ c && c ≤ 'f') || ('A' ≤ c && c ≤ 'F')

/-- The MongoDB id-shape test `/^[0-9a-fA-F]{24}$/` performed by the
production-run routes and the validated machine routes. -/
def is24Hex (s : String) : Bool := s.length == 24 && s.toList.all isHexChar

/-- Strings Mongoose can cast to an ObjectId: the 24-hex shape or any
12-character string.  `findById` raises a `CastError` on anything else. -/
def castableId (s : String) : Bool := is24Hex s || s.length == 12

/-- `/^[A-Z0-9-]+$/`: the format required of `runId` and `machineId`. -/
def upperIdOk (s : String) : Bool :=
  s.length != 0 && s.toList.all (fun c => c.isUpper || c.isDigit || c == '-')

/-- JavaScript truthiness of an optional string body field (`!req.body[f]`):
absent fields and the empty string are falsy. -/
def truthyS : Option String → Bool
  | none => false
  | some s => s != ""

/-- JavaScript truthiness of an optional numeric body field: absent fields
and `0` are falsy. -/
def truthyN : Option Int → Bool
  | none => false
  | some n => n != 0

/-- JavaScript `String.prototype.trim` (whitespace at both ends), defined on
the character list so that it evaluates by kernel reduction. -/
def jsTrim (s : String) : String :=
  String.mk (((s.data.dropWhile Char.isWhitespace).reverse.dropWhile
    Char.isWhitespace).reverse)

/-- JavaScript `toLowerCase` restricted to ASCII (all the letters these
handlers deal with), defined on the character list. -/
def jsToLower (s : String) : String := String.mk (s.data.map Char.toLower)

/-- Splits a character list at every occurrence of `c`
(`String.prototype.split` with a single-character separator). -/
def splitAtChar (c : Char) : List Char → List (List Char)
  | [] => [[]]
  | x :: xs =>
    match splitAtChar c xs with
    | [] => if x == c then [[], []] else [[x]]
    | h :: t => if x == c then [] :: h :: t else (x :: h) :: t

def digitsToNat (ds : List Char) : Nat :=
  ds.foldl (fun a c => a * 10 + (c.toNat - '0'.toNat)) 0

/-- JavaScript `parseInt` (base 10) applied to a possibly-absent query
parameter: skip leading whitespace, read an optional sign and a maximal run
of digits; `none` models `NaN` (no digit found, or the parameter absent). -/
def parseIntJs : Option String → Option Int
  | none => none
  | some s =>
    let cs := s.toList.dropWhile (fun c => c.isWhitespace)
    let p : Bool × List Char :=
      match cs with
      | '-' :: r => (true, r)
      | '+' :: r => (false, r)
      | r => (false, r)
    let ds := p.2.takeWhile (fun c => c.isDigit)
    if ds.isEmpty then none
    else if p.1 then some (-(digitsToNat ds : Int)) else some (digitsToNat ds : Int)

/-! ### The employee-schema email pattern

`/^\w+([.-]?\w+)*@\w+([.-]?\w+)*(\.\w{2,3})+$/` (employeeSchema.email).
Both sides of the single `@` are word blocks separated by single `.`/`-`
characters.  Because every `(\.\w{2,3})` group must align with the token
structure, the right side matches exactly when the token structure is valid,
it has at least two blocks, its final separator is `.` and its final block
is 2 or 3 characters long. -/

/-- Accepts `\w+([.-]?\w+)*`: nonempty, starts and ends with a word
character, no two adjacent separators.  `inBlock` records whether the
previous character was a word character. -/
def localAux : Bool → List Char → Bool
  | inBlock, [] => inBlock
  | inBlock, c :: cs =>
    if isWordChar c then localAux true cs
    else if (c == '.' || c == '-') && inBlock then localAux false cs
    else false

/-- Accepts `\w+([.-]?\w+)*(\.\w{2,3})+`.  `curLen` is the length of the
block being read, `lastSep` the separator that opened it, `nBlocks` the
number of blocks started so far. -/
def domainAux : Nat → Char → Nat → List Char → Bool
  | curLen, lastSep, nBlocks, [] =>
    curLen != 0 && decide (2 ≤ nBlocks) && lastSep == '.' &&
      (curLen == 2 || curLen == 3)
  | curLen, lastSep, nBlocks, c :: cs =>
    if isWordChar c then
      domainAux (curLen + 1) lastSep (if curLen == 0 then nBlocks + 1 else nBlocks) cs
    else if (c == '.' || c == '-') && curLen != 0 then
      domainAux 0 c nBlocks cs
    else false

/-- The Mongoose `match` validator on `employeeSchema.email`. -/
def emailSchemaOk (s : String) : Bool :=
  match splitAtChar '@' s.data with
  | [l, d] => localAux false l && domainAux 0 '-' 0 d
  | _ => false

/-! ### The in-memory employee router's email pattern

`/^[^\s@]+@[^\s@]+\.[^\s@]+$/`: exactly one `@`; before it a nonempty run of
non-space non-`@` characters; after it a string of such characters that
contains a `.` which is neither its first nor its last character. -/

def plainEmailChar (c : Char) : Bool := !c.isWhitespace && c != '@'

/-- Is there a `.` in the list that is not its last element? -/
def dotBeforeEnd : List Char → Bool
  | [] => false
  | [_] => false
  | c :: cs => c == '.' || dotBeforeEnd cs

def hasInteriorDot : List Char → Bool
  | [] => false
  | _ :: rest => dotBeforeEnd rest

/-- The email check of the in-memory employee router. -/
def emailSimpleOk (s : String) : Bool :=
  match splitAtChar '@' s.data with
  | [lc, dc] =>
    !lc.isEmpty && lc.all plainEmailChar && dc.all plainEmailChar &&
      hasInteriorDot dc
  | _ => false

/-! ### Enumerations (closed sets from the Mongoose schemas) -/

def machineStatusEnum : List String := ["operational", "maintenance", "down", "idle"]

def runStatusEnum : List String :=
  ["scheduled", "running", "completed", "paused", "cancelled"]

def checkTypeEnum : List String :=
  ["Visual", "Measurement", "Weight", "Dimensional", "Packaging", "Material"]

def checkResultEnum : List String := ["Pass", "Fail", "Rework", "Hold"]

def departmentEnum : List String :=
  ["Production", "Quality", "Maintenance", "Shipping", "Administration"]

def roleEnum : List String :=
  ["Operator", "Supervisor", "Manager", "Technician", "Inspector", "Administrator"]

def shiftEnum : List String := ["Morning", "Evening", "Night", "Flexible"]

def empMemStatusEnum : List String := ["active", "on_leave", "terminated"]

/-! ### Stored documents (Mongoose models) -/

/-- `models/machine.js` (`machineSchema`). -/
structure Machine where
  oid : String                      -- generated `_id`
  machineId : String
  name : String
  model? : Option String := none
  manufacturer? : Option String := none
  tonnage? : Option Int := none
  shotSize? : Option Int := none
  status : String := "operational"
  location? : Option String := none
  deriving Repr, DecidableEq

/-- `productionRunSchema` — note the schema has no `material` path, so the
`material` value the POST handler validates is dropped by Mongoose. -/
structure ProductionRun where
  oid : String
  runId : String
  machineRef : String               -- `machineId` reference (ObjectId)
  partNumber : String
  partName : String
  targetQty : Int
  actualQty : Int := 0
  status : String := "scheduled"
  startTime : Nat := 0
  endTime? : Option Nat := none
  operator? : Option String := none
  deriving Repr, DecidableEq

/-- One entry of `qualityCheckSchema.measurements`. -/
structure Measurement where
  parameter : String := ""
  value : Int := 0
  unit : String := ""
  tolerance : String := ""
  actualValue : Int := 0
  status : String := ""
  deriving Repr, DecidableEq

/-- `qualityCheckSchema`. -/
structure QualityCheck where
  oid : String
  checkId : String
  productionRunId : String
  machineRef : String
  employeeRef : String
  checkDate : Nat                   -- epoch milliseconds
  checkType : String
  result : String
  measurements : List Measurement := []
  notes? : Option String := none
  defectsFound : Int := 0
  correctiveAction? : Option String := none
  nextCheckDate? : Option Nat := none
  deriving Repr, DecidableEq

/-- `models/employee.js` (`employeeSchema`, with `timestamps: true`). -/
structure EmployeeDoc where
  oid : String
  employeeId : String
  firstName : String
  lastName : String
  email : String
  phone? : Option String := none
  department : String
  role : String
  hireDate : Nat
  shift : String := "Morning"
  active : Bool := true
  assignedMachine? : Option String := none
  createdAt : Nat := 0
  deriving Repr, DecidableEq

/-- A record of the in-memory employee store of the authenticated employee
router (the development-only placeholder store). -/
structure EmpMem where
  id : String
  employeeId : String
  name : String
  email : String
  department : String := ""
  position : String := ""
  hireDate : String := ""
  status : String := "active"
  deriving Repr, DecidableEq

/-- The MongoDB-backed collections. -/
structure DB where
  machines : List Machine := []
  runs : List ProductionRun := []
  checks : List QualityCheck := []
  employees : List EmployeeDoc := []
  deriving Repr, DecidableEq

/-- The seeded state of the in-memory employee store. -/
def seedEmployees : List EmpMem :=
  [ { id := "1", employeeId := "EMP-001", name := "John Doe",
      email := "john@example.com", department := "Production",
      position := "Operator", hireDate := "2023-01-15", status := "active" },
    { id := "2", employeeId := "EMP-002", name := "Jane Smith",
      email := "jane@example.com", department := "Quality",
      position := "Inspector", hireDate := "2023-02-20", status := "active" },
    { id := "3", employeeId := "EMP-003", name := "Bob Johnson",
      email := "bob@example.com", department := "Maintenance",
      position := "Technician", hireDate := "2022-11-10", status := "on_leave" } ]

/-! ### `findById`: ObjectId cast plus lookup

`.error ()` models a thrown `CastError`; `.ok none` a resolved `null`.
An absent body field (`findById(undefined)`) resolves to `null`. -/

def findMachine (l : List Machine) (i : String) : Except Unit (Option Machine) :=
  if castableId i then .ok (l.find? (fun m => m.oid == i)) else .error ()

def findRun (l : List ProductionRun) (i : String) : Except Unit (Option ProductionRun) :=
  if castableId i then .ok (l.find? (fun r => r.oid == i)) else .error ()

def findCheck (l : List QualityCheck) (i : String) : Except Unit (Option QualityCheck) :=
  if castableId i then .ok (l.find? (fun c => c.oid == i)) else .error ()

def findEmpDoc (l : List EmployeeDoc) (i : String) : Except Unit (Option EmployeeDoc) :=
  if castableId i then .ok (l.find? (fun e => e.oid == i)) else .error ()

def findRefMachine (l : List Machine) : Option String → Except Unit (Option Machine)
  | none => .ok none
  | some i => findMachine l i

def findRefRun (l : List ProductionRun) : Option String → Except Unit (Option ProductionRun)
  | none => .ok none
  | some i => findRun l i

def findRefEmpDoc (l : List EmployeeDoc) : Option String → Except Unit (Option EmployeeDoc)
  | none => .ok none
  | some i => findEmpDoc l i

/-! ### Descending sort by `checkDate` (`.sort({ checkDate: -1 })`) -/

def insertByDateDesc (x : QualityCheck) : List QualityCheck → List QualityCheck
  | [] => [x]
  | y :: ys =>
    if y.checkDate ≤ x.checkDate then x :: y :: ys else y :: insertByDateDesc x ys

def sortByDateDesc : List QualityCheck → List QualityCheck
  | [] => []
  | x :: xs => insertByDateDesc x (sortByDateDesc xs)

/-- Most-recent-check-first ordering. -/
def DescOrdered (l : List QualityCheck) : Prop :=
  l.Pairwise (fun a b => b.checkDate ≤ a.checkDate)

/-! ### Production-run routes (`routes/productionRuns.js`) -/

/-- The JSON body of a production-run POST/PUT request; `none` is an absent
field. -/
structure PRBody where
  runId : Option String := none
  machineId : Option String := none
  partNumber : Option String := none
  partName : Option String := none
  material : Option String := none
  targetQty : Option Int := none
  actualQty : Option Int := none
  status : Option String := none
  startTime : Option Nat := none
  endTime : Option Nat := none
  operator : Option String := none
  deriving Repr, DecidableEq

/-- `Object.keys(req.body).length === 0`. -/
def PRBody.isEmptyJs (b : PRBody) : Bool :=
  b.runId.isNone && b.machineId.isNone && b.partNumber.isNone &&
  b.partName.isNone && b.material.isNone && b.targetQty.isNone &&
  b.actualQty.isNone && b.status.isNone && b.startTime.isNone &&
  b.endTime.isNone && b.operator.isNone

/-- `requiredFields.filter(field => !req.body[field])`. -/
def prMissing (b : PRBody) : List String :=
  (["runId", "machineId", "partNumber", "partName", "material", "targetQty"]).filter
    (fun f =>
      match f with
      | "runId" => !truthyS b.runId
      | "machineId" => !truthyS b.machineId
      | "partNumber" => !truthyS b.partNumber
      | "partName" => !truthyS b.partName
      | "material" => !truthyS b.material
      | _ => !truthyN b.targetQty)

/-- The document `new ProductionRun(req.body)` constructs (the schema has no
`material` path, so `material` is dropped; schema defaults are applied). -/
def prNewDoc (b : PRBody) (fresh : String) : ProductionRun :=
  { oid := fresh
    runId := b.runId.getD ""
    machineRef := b.machineId.getD ""
    partNumber := b.partNumber.getD ""
    partName := b.partName.getD ""
    targetQty := b.targetQty.getD 0
    actualQty := b.actualQty.getD 0
    status := b.status.getD "scheduled"
    startTime := b.startTime.getD 0
    endTime? := b.endTime
    operator? := b.operator }

inductive PRGetResp
  | invalidIdFormat          -- 400 Invalid ID format
  | notFound                 -- 404 Production run not found
  | found (r : ProductionRun)  -- 200
  | serverError              -- 500 (catch)
  deriving Repr, DecidableEq

def PRGetResp.status : PRGetResp → Nat
  | .invalidIdFormat => 400
  | .notFound => 404
  | .found _ => 200
  | .serverError => 500

/-- `GET /production-runs/:id`. -/
def prGet (db : DB) (id : String) : PRGetResp :=
  if !is24Hex id then .invalidIdFormat
  else
    match findRun db.runs id with
    | .error _ => .serverError
    | .ok none => .notFound
    | .ok (some r) => .found r

inductive PRPostResp
  | missingFields (missing : List String)  -- 400, names every absent field
  | invalidRunId                           -- 400
  | machineNotFound                        -- 404
  | invalidPartNumber | invalidPartName | invalidMaterial  -- 400
  | invalidTargetQty | invalidActualQty | invalidStatus    -- 400
  | duplicate                              -- 400 (11000)
  | created (r : ProductionRun)            -- 201
  | serverError                            -- 500 (catch)
  deriving Repr, DecidableEq

def PRPostResp.status : PRPostResp → Nat
  | .missingFields _ => 400
  | .invalidRunId => 400
  | .machineNotFound => 404
  | .invalidPartNumber | .invalidPartName | .invalidMaterial => 400
  | .invalidTargetQty | .invalidActualQty | .invalidStatus => 400
  | .duplicate => 400
  | .created _ => 201
  | .serverError => 500

/-- Does the 400 body enumerate `f` among the missing fields? -/
def PRPostResp.names (r : PRPostResp) (f : String) : Bool :=
  match r with
  | .missingFields l => l.contains f
  | _ => false

/-- Helper: status-enum membership check of the production-run handlers. -/
def machineRunStatusOkPR (s : Option String) : Bool :=
  runStatusEnum.contains (s.getD "")

/-- `POST /production-runs`. -/
def prPost (db : DB) (b : PRBody) (fresh : String) : PRPostResp × DB :=
  if !(prMissing b).isEmpty then (.missingFields (prMissing b), db)
  else if !upperIdOk (b.runId.getD "") then (.invalidRunId, db)
  else
    match findRefMachine db.machines b.machineId with
    | .error _ => (.serverError, db)
    | .ok none => (.machineNotFound, db)
    | .ok (some _) =>
      if (b.partNumber.getD "").length < 2 then (.invalidPartNumber, db)
      else if (b.partName.getD "").length < 2 then (.invalidPartName, db)
      else if (b.material.getD "").length < 2 then (.invalidMaterial, db)
      else if (b.targetQty.getD 0) ≤ 0 then (.invalidTargetQty, db)
      else if truthyN b.actualQty && (b.actualQty.getD 0) < 0 then (.invalidActualQty, db)
      else if b.status.isSome && !machineRunStatusOkPR b.status then (.invalidStatus, db)
      else
        let doc := prNewDoc b fresh
        if db.runs.any (fun r => r.runId == doc.runId) then (.duplicate, db)
        else (.created doc, { db with runs := db.runs ++ [doc] })

/-- Update-validator errors `findByIdAndUpdate(..., runValidators: true)` can
raise for a production-run update: only updated paths are validated; setting
a required string path to the empty string, a quantity below its schema
minimum, or a status outside the enum fails. -/
def prUpdateValidate (b : PRBody) : List String :=
  (match b.runId with | some s => if s == "" then ["runId"] else [] | none => []) ++
  (match b.partNumber with | some s => if s == "" then ["partNumber"] else [] | none => []) ++
  (match b.partName with | some s => if s == "" then ["partName"] else [] | none => []) ++
  (match b.targetQty with | some n => if n < 1 then ["targetQty"] else [] | none => []) ++
  (match b.actualQty with | some n => if n < 0 then ["actualQty"] else [] | none => []) ++
  (match b.status with
   | some s => if runStatusEnum.contains s then [] else ["status"]
   | none => [])

/-- Applies only the supplied fields to the stored document. -/
def applyPRUpdate (r : ProductionRun) (b : PRBody) : ProductionRun :=
  { r with
    runId := b.runId.getD r.runId
    machineRef := b.machineId.getD r.machineRef
    partNumber := b.partNumber.getD r.partNumber
    partName := b.partName.getD r.partName
    targetQty := b.targetQty.getD r.targetQty
    actualQty := b.actualQty.getD r.actualQty
    status := b.status.getD r.status
    startTime := b.startTime.getD r.startTime
    endTime? := match b.endTime with | some t => some t | none => r.endTime?
    operator? := match b.operator with | some o => some o | none => r.operator? }

inductive PRPutResp
  | invalidIdFormat   -- 400
  | emptyBody         -- 400 Empty request body
  | invalidRunId      -- 400
  | machineNotFound   -- 404
  | invalidPartNumber | invalidPartName | invalidMaterial  -- 400
  | invalidTargetQty | invalidActualQty | invalidStatus    -- 400
  | notFound          -- 404
  | validationFailed (fields : List String)  -- 400
  | duplicate         -- 400 (11000)
  | updated (r : ProductionRun)  -- 200
  | updateFailed      -- 400 (this handler's final catch uses status 400)
  deriving Repr, DecidableEq

def PRPutResp.status : PRPutResp → Nat
  | .invalidIdFormat => 400
  | .emptyBody => 400
  | .invalidRunId => 400
  | .machineNotFound => 404
  | .invalidPartNumber | .invalidPartName | .invalidMaterial => 400
  | .invalidTargetQty | .invalidActualQty | .invalidStatus => 400
  | .notFound => 404
  | .validationFailed _ => 400
  | .duplicate => 400
  | .updated _ => 200
  | .updateFailed => 400

/-- `PUT /production-runs/:id`. -/
def prPut (db : DB) (id : String) (b : PRBody) : PRPutResp × DB :=
  if !is24Hex id then (.invalidIdFormat, db)
  else if b.isEmptyJs then (.emptyBody, db)
  else if truthyS b.runId && !upperIdOk (b.runId.getD "") then (.invalidRunId, db)
  else
    match findRefMachine db.machines b.machineId with
    | .error _ => (.updateFailed, db)
    | .ok res =>
      if b.machineId.isSome && res.isNone then (.machineNotFound, db)
      else if truthyS b.partNumber && (b.partNumber.getD "").length < 2 then
        (.invalidPartNumber, db)
      else if truthyS b.partName && (b.partName.getD "").length < 2 then
        (.invalidPartName, db)
      else if truthyS b.material && (b.material.getD "").length < 2 then
        (.invalidMaterial, db)
      else if truthyN b.targetQty && (b.targetQty.getD 0) ≤ 0 then (.invalidTargetQty, db)
      else if truthyN b.actualQty && (b.actualQty.getD 0) < 0 then (.invalidActualQty, db)
      else if b.status.isSome && !machineRunStatusOkPR b.status then (.invalidStatus, db)
      else
        match db.runs.find? (fun r => r.oid == id) with
        | none => (.notFound, db)
        | some r =>
          if !(prUpdateValidate b).isEmpty then (.validationFailed (prUpdateValidate b), db)
          else
            let r' := applyPRUpdate r b
            if db.runs.any (fun x => x.runId == r'.runId && x.oid != id) then
              (.duplicate, db)
            else
              (.updated r',
               { db with runs := db.runs.map (fun x => if x.oid == id then r' else x) })

inductive PRDeleteResp
  | invalidIdFormat   -- 400
  | notFound          -- 404
  | deleted (r : ProductionRun)  -- 200
  deriving Repr, DecidableEq

def PRDeleteResp.status : PRDeleteResp → Nat
  | .invalidIdFormat => 400
  | .notFound => 404
  | .deleted _ => 200

/-- `DELETE /production-runs/:id`. -/
def prDelete (db : DB) (id : String) : PRDeleteResp × DB :=
  if !is24Hex id then (.invalidIdFormat, db)
  else
    match db.runs.find? (fun r => r.oid == id) with
    | none => (.notFound, db)
    | some r => (.deleted r, { db with runs := db.runs.filter (fun x => x.oid != id) })

/-! ### Machine routes

Two iterations exist in the repository: the plain router
(`routes/machines.js`, which delegates all validation to the schema) and the
validated router, which performs the explicit field checks plus the 24-hex
path-id check.  Both are embedded. -/

structure MBody where
  machineId : Option String := none
  name : Option String := none
  model : Option String := none
  manufacturer : Option String := none
  status : Option String := none
  location : Option String := none
  deriving Repr, DecidableEq

def MBody.isEmptyJs (b : MBody) : Bool :=
  b.machineId.isNone && b.name.isNone && b.model.isNone &&
  b.manufacturer.isNone && b.status.isNone && b.location.isNone

/-- The missing-field list the validated POST builds (push order:
`machineId` then `name`). -/
def mMissing (b : MBody) : List String :=
  (if !truthyS b.machineId then ["machineId"] else []) ++
  (if !truthyS b.name then ["name"] else [])

/-- `new Machine(req.body)` with schema defaults. -/
def mNewDoc (b : MBody) (fresh : String) : Machine :=
  { oid := fresh
    machineId := b.machineId.getD ""
    name := b.name.getD ""
    model? := b.model
    manufacturer? := b.manufacturer
    status := b.status.getD "operational"
    location? := b.location }

/-- Schema-level validation errors for a machine save: required `machineId`
and `name` (empty strings fail `required`) and the status enum. -/
def mSchemaValidate (m : Machine) : List String :=
  (if m.machineId == "" then ["machineId"] else []) ++
  (if m.name == "" then ["name"] else []) ++
  (if machineStatusEnum.contains m.status then [] else ["status"])

inductive MPostResp
  | missingFields (missing : List String)  -- 400 (validated router)
  | invalidFormat                          -- 400 (validated router)
  | invalidName                            -- 400 (validated router)
  | invalidStatus                          -- 400 (validated router)
  | validationFailed (fields : List String)  -- 400 (schema ValidationError)
  | duplicate                              -- 400 (11000)
  | created (m : Machine)                  -- 201
  deriving Repr, DecidableEq

def MPostResp.status : MPostResp → Nat
  | .created _ => 201
  | _ => 400

def MPostResp.names (r : MPostResp) (f : String) : Bool :=
  match r with
  | .missingFields l => l.contains f
  | _ => false

/-- `POST /machines` of the validated router. -/
def mPostV (db : DB) (b : MBody) (fresh : String) : MPostResp × DB :=
  if !(mMissing b).isEmpty then (.missingFields (mMissing b), db)
  else if !upperIdOk (b.machineId.getD "") then (.invalidFormat, db)
  else if (b.name.getD "").length < 2 then (.invalidName, db)
  else if b.status.isSome && !machineStatusEnum.contains (b.status.getD "") then
    (.invalidStatus, db)
  else
    let doc := mNewDoc b fresh
    if db.machines.any (fun m => m.machineId == doc.machineId) then (.duplicate, db)
    else (.created doc, { db with machines := db.machines ++ [doc] })

/-- `POST /machines` of the plain router: `new Machine(req.body).save()`;
every error (ValidationError included) maps to a 400. -/
def mPostPlain (db : DB) (b : MBody) (fresh : String) : MPostResp × DB :=
  let doc := mNewDoc b fresh
  if !(mSchemaValidate doc).isEmpty then (.validationFailed (mSchemaValidate doc), db)
  else if db.machines.any (fun m => m.machineId == doc.machineId) then (.duplicate, db)
  else (.created doc, { db with machines := db.machines ++ [doc] })

inductive MGetResp
  | invalidIdFormat   -- 400 (validated router only)
  | notFound          -- 404
  | found (m : Machine)  -- 200
  | serverError       -- 500 (catch; the only path of the plain router for an uncastable id)
  deriving Repr, DecidableEq

def MGetResp.status : MGetResp → Nat
  | .invalidIdFormat => 400
  | .notFound => 404
  | .found _ => 200
  | .serverError => 500

/-- `GET /machines/:id` of the validated router. -/
def mGetV (db : DB) (id : String) : MGetResp :=
  if !is24Hex id then .invalidIdFormat
  else
    match findMachine db.machines id with
    | .error _ => .serverError
    | .ok none => .notFound
    | .ok (some m) => .found m

/-- `GET /machines/:id` of the plain router (no id-shape check: a
`CastError` falls into the catch clause, a 500). -/
def mGetPlain (db : DB) (id : String) : MGetResp :=
  match findMachine db.machines id with
  | .error _ => .serverError
  | .ok none => .notFound
  | .ok (some m) => .found m

def applyMUpdate (m : Machine) (b : MBody) : Machine :=
  { m with
    machineId := b.machineId.getD m.machineId
    name := b.name.getD m.name
    model? := match b.model with | some v => some v | none => m.model?
    manufacturer? := match b.manufacturer with | some v => some v | none => m.manufacturer?
    status := b.status.getD m.status
    location? := match b.location with | some v => some v | none => m.location? }

/-- Update-validator errors for a machine update (updated paths only). -/
def mUpdateValidate (b : MBody) : List String :=
  (match b.machineId with | some s => if s == "" then ["machineId"] else [] | none => []) ++
  (match b.name with | some s => if s == "" then ["name"] else [] | none => []) ++
  (match b.status with
   | some s => if machineStatusEnum.contains s then [] else ["status"]
   | none => [])

inductive MPutResp
  | invalidIdFormat   -- 400 (validated router)
  | emptyBody         -- 400 (validated router)
  | invalidFormat     -- 400 (validated router)
  | invalidName       -- 400 (validated router)
  | invalidStatus     -- 400 (validated router)
  | notFound          -- 404
  | validationFailed (fields : List String)  -- 400
  | duplicate         -- 400 (11000)
  | updated (m : Machine)  -- 200
  deriving Repr, DecidableEq

def MPutResp.status : MPutResp → Nat
  | .notFound => 404
  | .updated _ => 200
  | _ => 400

/-- `PUT /machines/:id` of the validated router. -/
def mPutV (db : DB) (id : String) (b : MBody) : MPutResp × DB :=
  if !is24Hex id then (.invalidIdFormat, db)
  else if b.isEmptyJs then (.emptyBody, db)
  else if truthyS b.machineId && !upperIdOk (b.machineId.getD "") then
    (.invalidFormat, db)
  else if truthyS b.name && (b.name.getD "").length < 2 then (.invalidName, db)
  else if b.status.isSome && !machineStatusEnum.contains (b.status.getD "") then
    (.invalidStatus, db)
  else
    match db.machines.find? (fun m => m.oid == id) with
    | none => (.notFound, db)
    | some m =>
      if !(mUpdateValidate b).isEmpty then (.validationFailed (mUpdateValidate b), db)
      else
        let m' := applyMUpdate m b
        if db.machines.any (fun x => x.machineId == m'.machineId && x.oid != id) then
          (.duplicate, db)
        else
          (.updated m',
           { db with machines := db.machines.map (fun x => if x.oid == id then m' else x) })

inductive MDeleteResp
  | invalidIdFormat   -- 400 (validated router)
  | notFound          -- 404
  | deleted (m : Machine)  -- 200
  deriving Repr, DecidableEq

def MDeleteResp.status : MDeleteResp → Nat
  | .invalidIdFormat => 400
  | .notFound => 404
  | .deleted _ => 200

/-- `DELETE /machines/:id` of the validated router. -/
def mDeleteV (db : DB) (id : String) : MDeleteResp × DB :=
  if !is24Hex id then (.invalidIdFormat, db)
  else
    match db.machines.find? (fun m => m.oid == id) with
    | none => (.notFound, db)
    | some m =>
      (.deleted m, { db with machines := db.machines.filter (fun x => x.oid != id) })

/-! ### Quality-check controllers (`controllers/qualityChecks.js`) -/

structure QCBody where
  checkId : Option String := none
  productionRunId : Option String := none
  machineId : Option String := none
  employeeId : Option String := none
  checkDate : Option Nat := none
  checkType : Option String := none
  result : Option String := none
  measurements : Option (List Measurement) := none
  notes : Option String := none
  defectsFound : Option Int := none
  correctiveAction : Option String := none
  nextCheckDate : Option Nat := none
  deriving Repr, DecidableEq

/-- The document `new QualityCheck(req.body)` constructs, with schema
defaults (`checkDate` defaults to the current time `now`). -/
def qcNewDoc (b : QCBody) (fresh : String) (now : Nat) : QualityCheck :=
  { oid := fresh
    checkId := b.checkId.getD ""
    productionRunId := b.productionRunId.getD ""
    machineRef := b.machineId.getD ""
    employeeRef := b.employeeId.getD ""
    checkDate := b.checkDate.getD now
    checkType := b.checkType.getD ""
    result := b.result.getD ""
    measurements := b.measurements.getD []
    notes? := b.notes
    defectsFound := b.defectsFound.getD 0
    correctiveAction? := b.correctiveAction
    nextCheckDate? := b.nextCheckDate }

/-- Schema validation errors at `save()` (one per offending path): required
`checkId`; required-and-enum `checkType` and `result`; `defectsFound ≥ 0`;
`notes`/`correctiveAction` max length 500.  The three references are present
by the time `save()` runs, since the handler resolved them first. -/
def qcSaveValidate (b : QCBody) : List String :=
  (if truthyS b.checkId then [] else ["checkId"]) ++
  (match b.checkType with
   | none => ["checkType"]
   | some t => if checkTypeEnum.contains t then [] else ["checkType"]) ++
  (match b.result with
   | none => ["result"]
   | some r => if checkResultEnum.contains r then [] else ["result"]) ++
  (match b.defectsFound with
   | some n => if n < 0 then ["defectsFound"] else []
   | none => []) ++
  (match b.notes with
   | some s => if s.length > 500 then ["notes"] else []
   | none => []) ++
  (match b.correctiveAction with
   | some s => if s.length > 500 then ["correctiveAction"] else []
   | none => [])

inductive QCGetResp
  | notFound          -- 404
  | found (c : QualityCheck)  -- 200
  | serverError       -- 500 (catch: a CastError on the path id lands here)
  deriving Repr, DecidableEq

def QCGetResp.status : QCGetResp → Nat
  | .notFound => 404
  | .found _ => 200
  | .serverError => 500

/-- `getQualityCheckById`: no id-shape pre-check, so an uncastable path id
throws a `CastError` which the catch clause reports as a 500. -/
def qcGetById (db : DB) (id : String) : QCGetResp :=
  match findCheck db.checks id with
  | .error _ => .serverError
  | .ok none => .notFound
  | .ok (some c) => .found c

inductive QCCreateResp
  | invalidRunRef      -- 400 Invalid production run ID
  | invalidMachineRef  -- 400 Invalid machine ID
  | invalidEmployeeRef -- 400 Invalid employee ID
  | validationFailed (fields : List String)  -- 400, details name each path
  | duplicate          -- 400 (11000)
  | created (c : QualityCheck)  -- 201
  | serverError        -- 500 (catch)
  deriving Repr, DecidableEq

def QCCreateResp.status : QCCreateResp → Nat
  | .created _ => 201
  | .serverError => 500
  | _ => 400

/-- Does the 400 body enumerate `f` among the offending fields? -/
def QCCreateResp.names (r : QCCreateResp) (f : String) : Bool :=
  match r with
  | .validationFailed l => l.contains f
  | _ => false

/-- `createQualityCheck`: resolve the three references first (a `CastError`
from any of the parallel lookups lands in the catch clause as a 500), then
reject missing references in order, then `save()`. -/
def qcCreate (db : DB) (b : QCBody) (fresh : String) (now : Nat) : QCCreateResp × DB :=
  match findRefRun db.runs b.productionRunId,
        findRefMachine db.machines b.machineId,
        findRefEmpDoc db.employees b.employeeId with
  | .error _, _, _ => (.serverError, db)
  | _, .error _, _ => (.serverError, db)
  | _, _, .error _ => (.serverError, db)
  | .ok pr, .ok m, .ok e =>
    if pr.isNone then (.invalidRunRef, db)
    else if m.isNone then (.invalidMachineRef, db)
    else if e.isNone then (.invalidEmployeeRef, db)
    else if !(qcSaveValidate b).isEmpty then (.validationFailed (qcSaveValidate b), db)
    else
      let doc := qcNewDoc b fresh now
      if db.checks.any (fun c => c.checkId == doc.checkId) then (.duplicate, db)
      else (.created doc, { db with checks := db.checks ++ [doc] })

/-- Update-validator errors for a quality-check update (updated paths
only). -/
def qcUpdateValidate (b : QCBody) : List String :=
  (match b.checkId with | some s => if s == "" then ["checkId"] else [] | none => []) ++
  (match b.checkType with
   | some t => if checkTypeEnum.contains t then [] else ["checkType"]
   | none => []) ++
  (match b.result with
   | some r => if checkResultEnum.contains r then [] else ["result"]
   | none => []) ++
  (match b.defectsFound with
   | some n => if n < 0 then ["defectsFound"] else []
   | none => []) ++
  (match b.notes with
   | some s => if s.length > 500 then ["notes"] else []
   | none => []) ++
  (match b.correctiveAction with
   | some s => if s.length > 500 then ["correctiveAction"] else []
   | none => [])

/-- Applies only the supplied fields to the stored document. -/
def applyQCUpdate (c : QualityCheck) (b : QCBody) : QualityCheck :=
  { c with
    checkId := b.checkId.getD c.checkId
    productionRunId := b.productionRunId.getD c.productionRunId
    machineRef := b.machineId.getD c.machineRef
    employeeRef := b.employeeId.getD c.employeeRef
    checkDate := b.checkDate.getD c.checkDate
    checkType := b.checkType.getD c.checkType
    result := b.result.getD c.result
    measurements := b.measurements.getD c.measurements
    notes? := match b.notes with | some s => some s | none => c.notes?
    defectsFound := b.defectsFound.getD c.defectsFound
    correctiveAction? :=
      match b.correctiveAction with | some s => some s | none => c.correctiveAction?
    nextCheckDate? :=
      match b.nextCheckDate with | some d => some d | none => c.nextCheckDate? }

inductive QCUpdateResp
  | invalidRunRef      -- 400
  | invalidMachineRef  -- 400
  | invalidEmployeeRef -- 400
  | notFound           -- 404
  | validationFailed (fields : List String)  -- 400
  | duplicate          -- 400 (11000)
  | updated (c : QualityCheck)  -- 200
  | serverError        -- 500 (catch)
  deriving Repr, DecidableEq

def QCUpdateResp.status : QCUpdateResp → Nat
  | .notFound => 404
  | .updated _ => 200
  | .serverError => 500
  | _ => 400

/-- The `findByIdAndUpdate(..., runValidators: true)` step of
`updateQualityCheck`. -/
def qcFindByIdAndUpdate (db : DB) (id : String) (b : QCBody) : QCUpdateResp × DB :=
  match findCheck db.checks id with
  | .error _ => (.serverError, db)
  | .ok none => (.notFound, db)
  | .ok (some c) =>
    if !(qcUpdateValidate b).isEmpty then (.validationFailed (qcUpdateValidate b), db)
    else
      let c' := applyQCUpdate c b
      if db.checks.any (fun x => x.checkId == c'.checkId && x.oid != id) then
        (.duplicate, db)
      else
        (.updated c',
         { db with checks := db.checks.map (fun x => if x.oid == id then c' else x) })

/-- The employee-reference check of `updateQualityCheck` (runs only when
`employeeId` is present in the payload). -/
def qcUpdateAfterMachine (db : DB) (id : String) (b : QCBody) : QCUpdateResp × DB :=
  match b.employeeId with
  | some e =>
    match findEmpDoc db.employees e with
    | .error _ => (.serverError, db)
    | .ok none => (.invalidEmployeeRef, db)
    | .ok (some _) => qcFindByIdAndUpdate db id b
  | none => qcFindByIdAndUpdate db id b

/-- The machine-reference check of `updateQualityCheck` (runs only when
`machineId` is present in the payload). -/
def qcUpdateAfterRun (db : DB) (id : String) (b : QCBody) : QCUpdateResp × DB :=
  match b.machineId with
  | some m =>
    match findMachine db.machines m with
    | .error _ => (.serverError, db)
    | .ok none => (.invalidMachineRef, db)
    | .ok (some _) => qcUpdateAfterMachine db id b
  | none => qcUpdateAfterMachine db id b

/-- `updateQualityCheck`: reference checks run only for fields present in
the payload (partial-update semantics), then `findByIdAndUpdate` with
`runValidators`.  There is no empty-payload check: an empty body simply
updates nothing. -/
def qcUpdate (db : DB) (id : String) (b : QCBody) : QCUpdateResp × DB :=
  match b.productionRunId with
  | some p =>
    match findRun db.runs p with
    | .error _ => (.serverError, db)
    | .ok none => (.invalidRunRef, db)
    | .ok (some _) => qcUpdateAfterRun db id b
  | none => qcUpdateAfterRun db id b

inductive QCDeleteResp
  | notFound           -- 404
  | deleted (c : QualityCheck)  -- 200
  | serverError        -- 500 (catch)
  deriving Repr, DecidableEq

def QCDeleteResp.status : QCDeleteResp → Nat
  | .notFound => 404
  | .deleted _ => 200
  | .serverError => 500

/-- `deleteQualityCheck` (`findByIdAndDelete`). -/
def qcDelete (db : DB) (id : String) : QCDeleteResp × DB :=
  match findCheck db.checks id with
  | .error _ => (.serverError, db)
  | .ok none => (.notFound, db)
  | .ok (some c) =>
    (.deleted c, { db with checks := db.checks.filter (fun x => x.oid != id) })

/-- Optional list filters of `getAllQualityChecks`. -/
structure QCFilter where
  startDate : Option Nat := none
  endDate : Option Nat := none
  result : Option String := none
  checkType : Option String := none
  deriving Repr, DecidableEq

def qcMatchesFilter (f : QCFilter) (c : QualityCheck) : Bool :=
  (match f.startDate with | some d => d ≤ c.checkDate | none => true) &&
  (match f.endDate with | some d => c.checkDate ≤ d | none => true) &&
  (match f.result with | some r => c.result == r | none => true) &&
  (match f.checkType with | some t => c.checkType == t | none => true)

/-- `getAllQualityChecks`: filter, then sort most-recent-first (200). -/
def qcGetAll (db : DB) (f : QCFilter) : List QualityCheck :=
  sortByDateDesc (db.checks.filter (qcMatchesFilter f))

/-- `getQualityChecksByResult` (200). -/
def qcByResult (db : DB) (r : String) : List QualityCheck :=
  sortByDateDesc (db.checks.filter (fun c => c.result == r))

/-- `const limit = parseInt(req.query.limit) || 10`: `NaN` and `0` are
falsy, so they fall back to 10. -/
def effLimit (q : Option String) : Int :=
  match parseIntJs q with
  | none => 10
  | some n => if n == 0 then 10 else n

/-- `getRecentQualityChecks`: sort most-recent-first, `.limit(limit)`
(200). -/
def qcRecent (db : DB) (q : Option String) : List QualityCheck :=
  (sortByDateDesc db.checks).take (effLimit q).toNat

/-! ### Employee controller (`controllers/employees.js` + `models/employee.js`) -/

structure EmpBody where
  employeeId : Option String := none
  firstName : Option String := none
  lastName : Option String := none
  email : Option String := none
  phone : Option String := none
  department : Option String := none
  role : Option String := none
  hireDate : Option Nat := none
  shift : Option String := none
  active : Option Bool := none
  assignedMachine : Option String := none
  deriving Repr, DecidableEq

/-- The document `new Employee(req.body)` constructs: Mongoose setters run
on assignment (`trim` on the string paths, `lowercase` additionally on
`email`), defaults are applied (`hireDate` and the timestamps use the
current time `now`). -/
def mkEmployeeDoc (b : EmpBody) (fresh : String) (now : Nat) : EmployeeDoc :=
  { oid := fresh
    employeeId := jsTrim (b.employeeId.getD "")
    firstName := jsTrim (b.firstName.getD "")
    lastName := jsTrim (b.lastName.getD "")
    email := jsToLower (jsTrim (b.email.getD ""))
    phone? := b.phone.map jsTrim
    department := b.department.getD ""
    role := b.role.getD ""
    hireDate := b.hireDate.getD now
    shift := b.shift.getD "Morning"
    active := b.active.getD true
    assignedMachine? := b.assignedMachine
    createdAt := now }

/-- Validator errors at `save()` (validators see the post-setter values):
required strings reject the empty string; `minlength 2` on the names; the
`match` pattern on `email`; closed enums on `department`, `role`, `shift`;
an uncastable `assignedMachine` reference surfaces as a cast error on that
path. -/
def empSchemaValidate (d : EmployeeDoc) : List String :=
  (if d.employeeId == "" then ["employeeId"] else []) ++
  (if d.firstName == "" || d.firstName.length < 2 then ["firstName"] else []) ++
  (if d.lastName == "" || d.lastName.length < 2 then ["lastName"] else []) ++
  (if d.email == "" || !emailSchemaOk d.email then ["email"] else []) ++
  (if departmentEnum.contains d.department then [] else ["department"]) ++
  (if roleEnum.contains d.role then [] else ["role"]) ++
  (if shiftEnum.contains d.shift then [] else ["shift"]) ++
  (match d.assignedMachine? with
   | some a => if castableId a then [] else ["assignedMachine"]
   | none => [])

inductive EmpDocResp
  | validationFailed (fields : List String)  -- 400
  | duplicate          -- 400 (11000: employeeId or email unique index)
  | created (e : EmployeeDoc)  -- 201
  | notFound           -- 404
  | found (e : EmployeeDoc)  -- 200
  | serverError        -- 500 (catch)
  deriving Repr, DecidableEq

def EmpDocResp.status : EmpDocResp → Nat
  | .validationFailed _ => 400
  | .duplicate => 400
  | .created _ => 201
  | .notFound => 404
  | .found _ => 200
  | .serverError => 500

/-- `createEmployee`: `new Employee(req.body).save()`, mapping
ValidationError and the duplicate key error to 400. -/
def createEmployee (db : DB) (b : EmpBody) (fresh : String) (now : Nat) :
    EmpDocResp × DB :=
  let d := mkEmployeeDoc b fresh now
  if !(empSchemaValidate d).isEmpty then (.validationFailed (empSchemaValidate d), db)
  else if db.employees.any (fun x => x.employeeId == d.employeeId || x.email == d.email) then
    (.duplicate, db)
  else (.created d, { db with employees := db.employees ++ [d] })

/-- `getEmployeeById`: no id-shape pre-check, so an uncastable path id is a
`CastError` reported by the catch clause as a 500. -/
def getEmployeeById (db : DB) (id : String) : EmpDocResp :=
  match findEmpDoc db.employees id with
  | .error _ => .serverError
  | .ok none => .notFound
  | .ok (some e) => .found e

/-! ### In-memory employee router (the authenticated iteration)

The store is a process-global array seeded with three records; `id` is
generated as `(employees.length + 1).toString()`. -/

structure EmpMemBody where
  employeeId : Option String := none
  name : Option String := none
  email : Option String := none
  department : Option String := none
  position : Option String := none
  hireDate : Option String := none
  status : Option String := none
  deriving Repr, DecidableEq

inductive EmpMemResp
  | listAll (l : List EmpMem)    -- 200
  | listActive (l : List EmpMem) -- 200
  | invalidId                    -- 400 Employee ID cannot be empty
  | notFound                     -- 404
  | found (e : EmpMem)           -- 200
  | missingFields                -- 400 (body lists the full required set)
  | duplicateId                  -- 400 Duplicate employee ID
  | invalidEmail                 -- 400
  | invalidStatus                -- 400
  | created (e : EmpMem)         -- 201
  | updated (e : EmpMem)         -- 200
  | deleted (e : EmpMem)         -- 200
  deriving Repr, DecidableEq

def EmpMemResp.status : EmpMemResp → Nat
  | .listAll _ => 200
  | .listActive _ => 200
  | .invalidId => 400
  | .notFound => 404
  | .found _ => 200
  | .missingFields => 400
  | .duplicateId => 400
  | .invalidEmail => 400
  | .invalidStatus => 400
  | .created _ => 201
  | .updated _ => 200
  | .deleted _ => 200

/-- `GET /employees`. -/
def emList (es : List EmpMem) : EmpMemResp := .listAll es

/-- `GET /employees/active`. -/
def emActive (es : List EmpMem) : EmpMemResp :=
  .listActive (es.filter (fun e => e.status == "active"))

/-- `GET /employees/:id` (looked up by `id` or by `employeeId`). -/
def emGet (es : List EmpMem) (id : String) : EmpMemResp :=
  if jsTrim id == "" then .invalidId
  else
    match es.find? (fun e => e.id == id || e.employeeId == id) with
    | none => .notFound
    | some e => .found e

/-- `POST /employees`: required-field truthiness, duplicate `employeeId`,
the simple email pattern and the status enum; the new record's `id` is
`(employees.length + 1).toString()`. -/
def emPost (es : List EmpMem) (b : EmpMemBody) (today : String) :
    EmpMemResp × List EmpMem :=
  if !(truthyS b.employeeId && truthyS b.name && truthyS b.email) then
    (.missingFields, es)
  else if es.any (fun e => e.employeeId == b.employeeId.getD "") then
    (.duplicateId, es)
  else if !emailSimpleOk (b.email.getD "") then (.invalidEmail, es)
  else if truthyS b.status && !empMemStatusEnum.contains (b.status.getD "") then
    (.invalidStatus, es)
  else
    let e : EmpMem :=
      { id := toString (es.length + 1)
        employeeId := b.employeeId.getD ""
        name := b.name.getD ""
        email := b.email.getD ""
        department := b.department.getD ""
        position := b.position.getD ""
        hireDate := b.hireDate.getD today
        status := b.status.getD "active" }
    (.created e, es ++ [e])

/-- The merge `{...employee, ...req.body, id, employeeId: employeeId ||
employee.employeeId}`: present body fields overwrite (even with a falsy
value), `id` is preserved, and a falsy body `employeeId` keeps the old
one. -/
def emMerge (old : EmpMem) (b : EmpMemBody) : EmpMem :=
  { id := old.id
    employeeId := if truthyS b.employeeId then b.employeeId.getD "" else old.employeeId
    name := b.name.getD old.name
    email := b.email.getD old.email
    department := b.department.getD old.department
    position := b.position.getD old.position
    hireDate := b.hireDate.getD old.hireDate
    status := b.status.getD old.status }

/-- `PUT /employees/:id`: find the target by `id` or `employeeId`; when a
truthy new `employeeId` differs from the target's, reject it only if some
OTHER record (`emp.id !== employee.id`) already holds it; validate email and
status only when present. -/
def emPut (es : List EmpMem) (id : String) (b : EmpMemBody) :
    EmpMemResp × List EmpMem :=
  if jsTrim id == "" then (.invalidId, es)
  else
    match es.findIdx? (fun e => e.id == id || e.employeeId == id) with
    | none => (.notFound, es)
    | some idx =>
      let old := es.getD idx { id := "", employeeId := "", name := "", email := "" }
      if truthyS b.employeeId && b.employeeId.getD "" != old.employeeId &&
          es.any (fun e => e.employeeId == b.employeeId.getD "" && e.id != old.id) then
        (.duplicateId, es)
      else if truthyS b.email && !emailSimpleOk (b.email.getD "") then
        (.invalidEmail, es)
      else if truthyS b.status && !empMemStatusEnum.contains (b.status.getD "") then
        (.invalidStatus, es)
      else
        let merged := emMerge old b
        (.updated merged, es.set idx merged)

/-- `DELETE /employees/:id` (`splice` removes the found index). -/
def emDelete (es : List EmpMem) (id : String) : EmpMemResp × List EmpMem :=
  if jsTrim id == "" then (.invalidId, es)
  else
    match es.findIdx? (fun e => e.id == id || e.employeeId == id) with
    | none => (.notFound, es)
    | some idx =>
      let e := es.getD idx { id := "", employeeId := "", name := "", email := "" }
      (.deleted e, es.eraseIdx idx)

/-! ### Authentication and authorization middleware (`middleware/auth.js`) -/

/-- The request context the middleware inspects: the session-backed
`req.isAuthenticated()` flag and `req.user.emails` (an array of values). -/
structure AuthCtx where
  authenticated : Bool
  userEmails : List String := []
  deriving Repr, DecidableEq

structure ErrBody where
  error : String
  message : String
  deriving Repr, DecidableEq

/-- The structured body of the `isAuthenticated` rejection. -/
def unauthorizedBody : ErrBody :=
  { error := "Unauthorized"
    message := "Authentication required to access this resource" }

/-- What a middleware does with a request: pass it on, or answer. -/
inductive MWResult
  | next
  | respond (status : Nat) (body : ErrBody)
  deriving Repr, DecidableEq

/-- The `isAuthenticated` middleware: a pure predicate on the session; it
either calls `next()` or answers 401 with the structured body. -/
def isAuthenticated (ctx : AuthCtx) : MWResult :=
  if ctx.authenticated then .next
  else .respond 401 unauthorizedBody

/-- The `hasRole(role)` middleware: after the authentication check it
computes the email-domain comparisons, but each branch — including the final
default — calls `next()`; the 403 response is commented out in the source,
so an authenticated caller is always allowed. -/
def hasRole (role : String) (ctx : AuthCtx) : MWResult :=
  if !ctx.authenticated then
    .respond 401 { error := "Unauthorized", message := "Authentication required" }
  else
    let userEmail := (ctx.userEmails.head?).getD ""
    if role == "admin" && userEmail.endsWith "@admin.com" then .next
    else if role == "manager" &&
        (userEmail.endsWith "@admin.com" || userEmail.endsWith "@manager.com") then .next
    else .next

/-! ### The protected routers

`routes/qualityChecks.js` wires `isAuthenticated` in front of every
quality-check handler, and the authenticated employee router wires it in
front of every in-memory employee handler.  A request is the authentication
context plus the routed operation. -/

inductive QCOp
  | getAll (f : QCFilter)
  | recent (limit : Option String)
  | byResult (r : String)
  | getById (id : String)
  | create (b : QCBody) (fresh : String) (now : Nat)
  | update (id : String) (b : QCBody)
  | deleteById (id : String)
  deriving Repr

inductive QCResp
  | unauthorized                     -- 401 from the gate
  | listing (l : List QualityCheck)  -- 200 (getAll / recent / byResult)
  | getOne (r : QCGetResp)
  | createOne (r : QCCreateResp)
  | updateOne (r : QCUpdateResp)
  | deleteOne (r : QCDeleteResp)
  deriving Repr, DecidableEq

def QCResp.status : QCResp → Nat
  | .unauthorized => 401
  | .listing _ => 200
  | .getOne r => r.status
  | .createOne r => r.status
  | .updateOne r => r.status
  | .deleteOne r => r.status

/-- The quality-check handler stack without the gate. -/
def qcHandle (op : QCOp) (db : DB) : QCResp × DB :=
  match op with
  | .getAll f => (.listing (qcGetAll db f), db)
  | .recent q => (.listing (qcRecent db q), db)
  | .byResult r => (.listing (qcByResult db r), db)
  | .getById i => (.getOne (qcGetById db i), db)
  | .create b fresh now =>
    let (r, db') := qcCreate db b fresh now
    (.createOne r, db')
  | .update i b =>
    let (r, db') := qcUpdate db i b
    (.updateOne r, db')
  | .deleteById i =>
    let (r, db') := qcDelete db i
    (.deleteOne r, db')

structure QCRequest where
  ctx : AuthCtx
  op : QCOp

/-- The `/quality-checks` router: `isAuthenticated` guards every route. -/
def dispatchQC (req : QCRequest) (db : DB) : QCResp × DB :=
  match isAuthenticated req.ctx with
  | .respond _ _ => (.unauthorized, db)
  | .next => qcHandle req.op db

inductive EmpOp
  | list
  | active
  | getById (id : String)
  | post (b : EmpMemBody) (today : String)
  | put (id : String) (b : EmpMemBody)
  | deleteById (id : String)
  deriving Repr

inductive EmpResp
  | unauthorized              -- 401 from the gate
  | handled (r : EmpMemResp)
  deriving Repr, DecidableEq

def EmpResp.status : EmpResp → Nat
  | .unauthorized => 401
  | .handled r => r.status

/-- The in-memory employee handler stack without the gate. -/
def empHandle (op : EmpOp) (es : List EmpMem) : EmpResp × List EmpMem :=
  match op with
  | .list => (.handled (emList es), es)
  | .active => (.handled (emActive es), es)
  | .getById i => (.handled (emGet es i), es)
  | .post b today =>
    let (r, es') := emPost es b today
    (.handled r, es')
  | .put i b =>
    let (r, es') := emPut es i b
    (.handled r, es')
  | .deleteById i =>
    let (r, es') := emDelete es i
    (.handled r, es')

structure EmpRequest where
  ctx : AuthCtx
  op : EmpOp

/-- The `/employees` router (authenticated iteration): `isAuthenticated`
guards every route. -/
def dispatchEmp (req : EmpRequest) (es : List EmpMem) : EmpResp × List EmpMem :=
  match isAuthenticated req.ctx with
  | .respond _ _ => (.unauthorized, es)
  | .next => empHandle req.op es

/-! ### Concrete fixtures used by witnesses and counterexamples -/

def oidA : String := "aaaaaaaaaaaaaaaaaaaaaaaa"
def oidB : String := "bbbbbbbbbbbbbbbbbbbbbbbb"
def oidC : String := "cccccccccccccccccccccccc"
def oidD : String := "dddddddddddddddddddddddd"
def oidE : String := "eeeeeeeeeeeeeeeeeeeeeeee"
def oidF : String := "ffffffffffffffffffffffff"

def fixtureMachine : Machine :=
  { oid := oidB, machineId := "IM-001", name := "Toshiba 350T" }

def fixtureRun : ProductionRun :=
  { oid := oidC, runId := "RUN-001", machineRef := oidB,
    partNumber := "HOUSING-A", partName := "Main Housing", targetQty := 5000 }

def fixtureEmpDoc : EmployeeDoc :=
  { oid := oidD, employeeId := "EMP-100", firstName := "Alice",
    lastName := "Smith", email := "alice@example.com",
    department := "Quality", role := "Inspector", hireDate := 0 }

def fixtureCheck : QualityCheck :=
  { oid := oidE, checkId := "QC-001", productionRunId := oidC,
    machineRef := oidB, employeeRef := oidD, checkDate := 100,
    checkType := "Visual", result := "Pass" }

def fixtureDB : DB :=
  { machines := [fixtureMachine], runs := [fixtureRun],
    checks := [fixtureCheck], employees := [fixtureEmpDoc] }

/-- A quality-check create payload whose production-run reference is
well-formed but dangling and whose required scalar fields are all absent. -/
def qcBodyDanglingRun : QCBody :=
  { productionRunId := some oidA, machineId := some oidB, employeeId := some oidD }

/-- An employee create payload with a validly formatted mixed-case email. -/
def empBodyMixedCase : EmpBody :=
  { employeeId := some "EMP-200", firstName := some "Alice",
    lastName := some "Smith", email := some "John@Example.com",
    department := some "Quality", role := some "Inspector" }

def emptyDB : DB := {}

/-- A valid plain machine create payload. -/
def mBodyFull : MBody := { machineId := some "IM-009", name := some "Press A" }

/-- A production-run create payload whose machine reference is well-formed
but dangling. -/
def prBodyDangling : PRBody :=
  { runId := some "RUN-100", machineId := some oidA,
    partNumber := some "PN-10", partName := some "Widget",
    material := some "ABS", targetQty := some 100 }

/-- A production-run update payload whose machine reference is well-formed
but dangling. -/
def prPutBodyDangling : PRBody := { machineId := some oidA }

/-- A quality-check update payload whose machine reference is well-formed
but dangling. -/
def qcUpdBodyDangling : QCBody := { machineId := some oidA }

/-- The state of the in-memory employee store after `DELETE /employees/1`. -/
def dupStateA : EmpMemResp × List EmpMem := emDelete seedEmployees "1"

/-- ... then `POST /employees` with a new unique employeeId: the generated
internal `id` is `(length + 1).toString() = "3"`, which collides with the
seeded record that already has `id = "3"`. -/
def dupStateB : EmpMemResp × List EmpMem :=
  emPost dupStateA.2
    { employeeId := some "EMP-004", name := some "Amy Lee",
      email := some "amy@example.com" } "2026-10-12"

/-- ... then `PUT /employees/EMP-004` changing `employeeId` to the value
held by the other record with the same internal id: the duplicate check's
self-exclusion (`emp.id !== employee.id`) also excludes that record, so the
update is accepted. -/
def dupStateC : EmpMemResp × List EmpMem :=
  emPut dupStateB.2 "EMP-004" { employeeId := some "EMP-003" }

/-! ### Sortedness of the most-recent-first listings -/

theorem mem_insertByDateDesc {x y : QualityCheck} {l : List QualityCheck} :
    y ∈ insertByDateDesc x l ↔ y = x ∨ y ∈ l := by
  induction l with
  | nil => simp [insertByDateDesc]
  | cons z zs ih =>
    simp only [insertByDateDesc]
    split
    · simp [List.mem_cons]
    · simp only [List.mem_cons, ih]
      tauto

theorem descOrdered_insertByDateDesc (x : QualityCheck) :
    ∀ {l : List QualityCheck}, DescOrdered l → DescOrdered (insertByDateDesc x l) := by
  intro l
  induction l with
  | nil =>
    intro _
    simp [insertByDateDesc, DescOrdered]
  | cons z zs ih =>
    intro h
    rw [DescOrdered, List.pairwise_cons] at h
    obtain ⟨hz, hzs⟩ := h
    by_cases hc : z.checkDate ≤ x.checkDate
    · rw [DescOrdered]
      simp only [insertByDateDesc, if_pos hc]
      refine List.Pairwise.cons ?_ (List.Pairwise.cons hz hzs)
      intro b hb
      rcases List.mem_cons.mp hb with rfl | hb
      · exact hc
      · exact le_trans (hz b hb) hc
    · rw [DescOrdered]
      simp only [insertByDateDesc, if_neg hc]
      refine List.Pairwise.cons ?_ (ih hzs)
      intro b hb
      rcases mem_insertByDateDesc.mp hb with rfl | hb
      · exact le_of_not_le hc
      · exact hz b hb

theorem descOrdered_sortByDateDesc (l : List QualityCheck) :
    DescOrdered (sortByDateDesc l) := by
  induction l with
  | nil => simp [sortByDateDesc, DescOrdered]
  | cons x xs ih => exact descOrdered_insertByDateDesc x ih

theorem descOrdered_take (n : Nat) {l : List QualityCheck} (h : DescOrdered l) :
    DescOrdered (l.take n) :=
  List.Pairwise.sublist (List.take_sublist n l) h

/-! ### Generic list facts used by the round-trip proofs -/

theorem find?_append_right {α : Type} (p : α → Bool) (l1 l2 : List α)
    (h : ∀ x ∈ l1, p x = false) : (l1 ++ l2).find? p = l2.find? p := by
  induction l1 with
  | nil => simp
  | cons x xs ih =>
    simp only [List.cons_append, List.find?]
    rw [h x (by simp)]
    exact ih (fun y hy => h y (by simp [hy]))

/-! ### The quality-check update chain never reports a run reference that
was absent from the payload -/

theorem qcFindByIdAndUpdate_ne_runRef (db : DB) (id : String) (b : QCBody) :
    (qcFindByIdAndUpdate db id b).1 ≠ .invalidRunRef := by
  unfold qcFindByIdAndUpdate
  split
  · simp
  · simp
  · split
    · simp
    · dsimp only
      split <;> simp

theorem qcUpdateAfterMachine_ne_runRef (db : DB) (id : String) (b : QCBody) :
    (qcUpdateAfterMachine db id b).1 ≠ .invalidRunRef := by
  unfold qcUpdateAfterMachine
  split
  · split
    · simp
    · simp
    · exact qcFindByIdAndUpdate_ne_runRef db id b
  · exact qcFindByIdAndUpdate_ne_runRef db id b

theorem qcUpdateAfterRun_ne_runRef (db : DB) (id : String) (b : QCBody) :
    (qcUpdateAfterRun db id b).1 ≠ .invalidRunRef := by
  unfold qcUpdateAfterRun
  split
  · split
    · simp
    · simp
    · exact qcUpdateAfterMachine_ne_runRef db id b
  · exact qcUpdateAfterMachine_ne_runRef db id b

/-! ### Dangling-reference behaviour of the quality-check update chain -/

theorem qcUpdateAfterMachine_dangling (db : DB) (id : String) (b : QCBody)
    (h3 : ∀ e, b.employeeId = some e → castableId e = true)
    (hd : ∃ e, b.employeeId = some e ∧
      db.employees.find? (fun x => x.oid == e) = none) :
    qcUpdateAfterMachine db id b = (.invalidEmployeeRef, db) := by
  obtain ⟨e, he, hn⟩ := hd
  have hc := h3 e he
  simp [qcUpdateAfterMachine, he, findEmpDoc, hc, hn]

theorem qcUpdateAfterRun_dangling (db : DB) (id : String) (b : QCBody)
    (h2 : ∀ m, b.machineId = some m → castableId m = true)
    (h3 : ∀ e, b.employeeId = some e → castableId e = true)
    (hd : (∃ m, b.machineId = some m ∧
            db.machines.find? (fun x => x.oid == m) = none) ∨
          (∃ e, b.employeeId = some e ∧
            db.employees.find? (fun x => x.oid == e) = none)) :
    (qcUpdateAfterRun db id b).1.status = 400 ∧ (qcUpdateAfterRun db id b).2 = db := by
  cases hbm : b.machineId with
  | some m =>
    have hc := h2 m hbm
    cases hfm : db.machines.find? (fun x => x.oid == m) with
    | none =>
      simp [qcUpdateAfterRun, hbm, findMachine, hc, hfm, QCUpdateResp.status]
    | some mm =>
      have hd' : ∃ e, b.employeeId = some e ∧
          db.employees.find? (fun x => x.oid == e) = none := by
        rcases hd with ⟨m', hm', hn'⟩ | h
        · rw [hbm] at hm'
          injection hm' with hmm
          rw [← hmm] at hn'
          rw [hn'] at hfm
          cases hfm
        · exact h
      have := qcUpdateAfterMachine_dangling db id b h3 hd'
      simp [qcUpdateAfterRun, hbm, findMachine, hc, hfm, this, QCUpdateResp.status]
  | none =>
    have hd' : ∃ e, b.employeeId = some e ∧
        db.employees.find? (fun x => x.oid == e) = none := by
      rcases hd with ⟨m', hm', _⟩ | h
      · rw [hbm] at hm'
        cases hm'
      · exact h
    have := qcUpdateAfterMachine_dangling db id b h3 hd'
    simp [qcUpdateAfterRun, hbm, this, QCUpdateResp.status]

/-! ### Claim theorems -/

/-- C1: for every authenticated request and every requested capability, the
`hasRole(role)` middleware grants access (calls the next handler): the
email-domain comparisons are computed, but every branch — including the
default one — falls through to allow, so a 403/Forbidden response is never
produced for an authenticated caller. -/
theorem hasRole_always_allows_authenticated (role : String) (emails : List String) :
    hasRole role { authenticated := true, userEmails := emails } = .next := by
  simp [hasRole]

/-- C2: every `/employees` and `/quality-checks` route sits behind the
authentication gate: without a valid session identity the response is the
structured 401 Unauthorized body and the store is untouched (no handler
logic runs); with a valid session the gate passes the request to the handler
unchanged, with no side effect of its own. -/
theorem auth_gate_guards_protected_routes (qop : QCOp) (eop : EmpOp) (db : DB)
    (es : List EmpMem) (emails : List String) :
    dispatchQC { ctx := { authenticated := false, userEmails := emails }, op := qop } db
      = (.unauthorized, db) ∧
    dispatchEmp { ctx := { authenticated := false, userEmails := emails }, op := eop } es
      = (.unauthorized, es) ∧
    QCResp.status .unauthorized = 401 ∧
    EmpResp.status .unauthorized = 401 ∧
    isAuthenticated { authenticated := false, userEmails := emails }
      = .respond 401 unauthorizedBody ∧
    dispatchQC { ctx := { authenticated := true, userEmails := emails }, op := qop } db
      = qcHandle qop db ∧
    dispatchEmp { ctx := { authenticated := true, userEmails := emails }, op := eop } es
      = empHandle eop es :=
  ⟨rfl, rfl, rfl, rfl, rfl, rfl, rfl⟩

/-- C8: an authenticated `GET /quality-checks/recent?limit=5` answers 200
with at most 5 quality checks, ordered by `checkDate` descending
(most recent first). -/
theorem recent_limit_five_sorted (db : DB) (emails : List String) :
    dispatchQC { ctx := { authenticated := true, userEmails := emails },
                 op := .recent (some "5") } db
      = (.listing (qcRecent db (some "5")), db) ∧
    QCResp.status (.listing (qcRecent db (some "5"))) = 200 ∧
    (qcRecent db (some "5")).length ≤ 5 ∧
    DescOrdered (qcRecent db (some "5")) := by
  refine ⟨rfl, rfl, ?_, ?_⟩
  · have h5 : (effLimit (some "5")).toNat = 5 := by decide
    rw [qcRecent, h5]
    exact List.length_take_le 5 _
  · exact descOrdered_take _ (descOrdered_sortByDateDesc _)

/-- C10: when the `limit` query parameter of `GET /quality-checks/recent` is
absent, non-numeric, or parses to 0, `parseInt(...) || 10` falls back to the
default limit 10, so the 200 response holds at most 10 quality checks. -/
theorem recent_limit_defaults_to_ten (db : DB) (q : Option String)
    (emails : List String) (h : parseIntJs q = none ∨ parseIntJs q = some 0) :
    dispatchQC { ctx := { authenticated := true, userEmails := emails },
                 op := .recent q } db
      = (.listing (qcRecent db q), db) ∧
    QCResp.status (.listing (qcRecent db q)) = 200 ∧
    (qcRecent db q).length ≤ 10 := by
  refine ⟨rfl, rfl, ?_⟩
  have h10 : (effLimit q).toNat = 10 := by
    rcases h with h | h <;> simp [effLimit, h]
  rw [qcRecent, h10]
  exact List.length_take_le 10 _

/-- C10 witness: a non-numeric `limit` falls back to 10 on a concrete
store. -/
theorem recent_limit_defaults_to_ten_witness :
    dispatchQC { ctx := { authenticated := true, userEmails := [] },
                 op := .recent (some "abc") } fixtureDB
      = (.listing (qcRecent fixtureDB (some "abc")), fixtureDB) ∧
    QCResp.status (.listing (qcRecent fixtureDB (some "abc"))) = 200 ∧
    (qcRecent fixtureDB (some "abc")).length ≤ 10 :=
  recent_limit_defaults_to_ten fixtureDB (some "abc") [] (Or.inl (by decide))

/-- C3: on every write path that references another entity by id
(production-run create/update referencing a machine; quality-check
create/update referencing a production run, machine and employee), a
well-formed reference that resolves to no existing document yields a 400 or
a 404 and leaves the store unchanged — never a success response and never a
500. -/
theorem dangling_reference_never_writes :
    (∀ (db : DB) (b : PRBody) (fresh m : String),
      b.machineId = some m → is24Hex m = true →
      db.machines.find? (fun x => x.oid == m) = none →
      ((prPost db b fresh).1.status = 400 ∨ (prPost db b fresh).1.status = 404) ∧
        (prPost db b fresh).2 = db) ∧
    (∀ (db : DB) (id : String) (b : PRBody) (m : String),
      b.machineId = some m → is24Hex m = true →
      db.machines.find? (fun x => x.oid == m) = none →
      ((prPut db id b).1.status = 400 ∨ (prPut db id b).1.status = 404) ∧
        (prPut db id b).2 = db) ∧
    (∀ (db : DB) (b : QCBody) (fresh : String) (now : Nat) (p m e : String),
      b.productionRunId = some p → b.machineId = some m → b.employeeId = some e →
      castableId p = true → castableId m = true → castableId e = true →
      (db.runs.find? (fun x => x.oid == p) = none ∨
       db.machines.find? (fun x => x.oid == m) = none ∨
       db.employees.find? (fun x => x.oid == e) = none) →
      (qcCreate db b fresh now).1.status = 400 ∧ (qcCreate db b fresh now).2 = db) ∧
    (∀ (db : DB) (id : String) (b : QCBody),
      (∀ p, b.productionRunId = some p → castableId p = true) →
      (∀ m, b.machineId = some m → castableId m = true) →
      (∀ e, b.employeeId = some e → castableId e = true) →
      ((∃ p, b.productionRunId = some p ∧
         db.runs.find? (fun x => x.oid == p) = none) ∨
       (∃ m, b.machineId = some m ∧
         db.machines.find? (fun x => x.oid == m) = none) ∨
       (∃ e, b.employeeId = some e ∧
         db.employees.find? (fun x => x.oid == e) = none)) →
      (qcUpdate db id b).1.status = 400 ∧ (qcUpdate db id b).2 = db) := by
  refine ⟨?_, ?_, ?_, ?_⟩
  · intro db b fresh m hm hhex hnone
    have hcast : castableId m = true := by simp [castableId, hhex]
    have hfind : findRefMachine db.machines b.machineId = .ok none := by
      rw [hm]
      simp [findRefMachine, findMachine, hcast, hnone]
    simp only [prPost, hfind]
    split_ifs <;>
      first
        | exact ⟨Or.inl rfl, rfl⟩
        | exact ⟨Or.inr rfl, rfl⟩
  · intro db id b m hm hhex hnone
    have hcast : castableId m = true := by simp [castableId, hhex]
    have hfind : findRefMachine db.machines b.machineId = .ok none := by
      rw [hm]
      simp [findRefMachine, findMachine, hcast, hnone]
    have hne : b.isEmptyJs = false := by
      simp [PRBody.isEmptyJs, hm]
    have hsome : b.machineId.isSome = true := by simp [hm]
    simp only [prPut, hfind, hne, hsome, Option.isNone_none, Bool.and_true,
      Bool.false_eq_true, if_false, if_true]
    split_ifs <;>
      first
        | exact ⟨Or.inl rfl, rfl⟩
        | exact ⟨Or.inr rfl, rfl⟩
  · intro db b fresh now p m e hp hm he hcp hcm hce hdis
    have hfr : findRefRun db.runs b.productionRunId
        = .ok (db.runs.find? (fun x => x.oid == p)) := by
      rw [hp]
      simp [findRefRun, findRun, hcp]
    have hfm : findRefMachine db.machines b.machineId
        = .ok (db.machines.find? (fun x => x.oid == m)) := by
      rw [hm]
      simp [findRefMachine, findMachine, hcm]
    have hfe : findRefEmpDoc db.employees b.employeeId
        = .ok (db.employees.find? (fun x => x.oid == e)) := by
      rw [he]
      simp [findRefEmpDoc, findEmpDoc, hce]
    simp only [qcCreate, hfr, hfm, hfe]
    rcases hdis with h1 | h1 | h1 <;>
      cases hp2 : db.runs.find? (fun x => x.oid == p) <;>
      cases hm2 : db.machines.find? (fun x => x.oid == m) <;>
      cases he2 : db.employees.find? (fun x => x.oid == e) <;>
      simp_all [QCCreateResp.status]
  · intro db id b h1 h2 h3 hd
    cases hbp : b.productionRunId with
    | some p =>
      have hc := h1 p hbp
      cases hfp : db.runs.find? (fun x => x.oid == p) with
      | none =>
        simp [qcUpdate, hbp, findRun, hc, hfp, QCUpdateResp.status]
      | some r =>
        have hd' : (∃ m, b.machineId = some m ∧
              db.machines.find? (fun x => x.oid == m) = none) ∨
            (∃ e, b.employeeId = some e ∧
              db.employees.find? (fun x => x.oid == e) = none) := by
          rcases hd with ⟨p', hp', hn'⟩ | h | h
          · rw [hbp] at hp'
            injection hp' with hpe
            rw [← hpe] at hn'
            rw [hn'] at hfp
            cases hfp
          · exact Or.inl h
          · exact Or.inr h
        have hrest := qcUpdateAfterRun_dangling db id b h2 h3 hd'
        simp only [qcUpdate, hbp, findRun, hc, if_true, hfp]
        exact hrest
    | none =>
      have hd' : (∃ m, b.machineId = some m ∧
            db.machines.find? (fun x => x.oid == m) = none) ∨
          (∃ e, b.employeeId = some e ∧
            db.employees.find? (fun x => x.oid == e) = none) := by
        rcases hd with ⟨p', hp', _⟩ | h | h
        · rw [hbp] at hp'
          cases hp'
        · exact Or.inl h
        · exact Or.inr h
      have hrest := qcUpdateAfterRun_dangling db id b h2 h3 hd'
      simp only [qcUpdate, hbp]
      exact hrest

/-- C3 witness: concrete dangling references on the fixture store, one per
write path. -/
theorem dangling_reference_never_writes_witness :
    (((prPost fixtureDB prBodyDangling oidF).1.status = 400 ∨
        (prPost fixtureDB prBodyDangling oidF).1.status = 404) ∧
      (prPost fixtureDB prBodyDangling oidF).2 = fixtureDB) ∧
    (((prPut fixtureDB oidC prPutBodyDangling).1.status = 400 ∨
        (prPut fixtureDB oidC prPutBodyDangling).1.status = 404) ∧
      (prPut fixtureDB oidC prPutBodyDangling).2 = fixtureDB) ∧
    ((qcCreate fixtureDB qcBodyDanglingRun oidF 0).1.status = 400 ∧
      (qcCreate fixtureDB qcBodyDanglingRun oidF 0).2 = fixtureDB) ∧
    ((qcUpdate fixtureDB oidE qcUpdBodyDangling).1.status = 400 ∧
      (qcUpdate fixtureDB oidE qcUpdBodyDangling).2 = fixtureDB) := by
  refine ⟨?_, ?_, ?_, ?_⟩
  · exact dangling_reference_never_writes.1 fixtureDB prBodyDangling oidF oidA
      rfl (by decide) (by decide)
  · exact dangling_reference_never_writes.2.1 fixtureDB oidC prPutBodyDangling oidA
      rfl (by decide) (by decide)
  · exact dangling_reference_never_writes.2.2.1 fixtureDB qcBodyDanglingRun oidF 0
      oidA oidB oidD rfl rfl rfl (by decide) (by decide) (by decide)
      (Or.inl (by decide))
  · exact dangling_reference_never_writes.2.2.2 fixtureDB oidE qcUpdBodyDangling
      (fun p hp => by cases hp)
      (fun m hm => by
        injection hm with h
        rw [← h]
        decide)
      (fun e he => by cases he)
      (Or.inr (Or.inl ⟨oidA, rfl, by decide⟩))

/-- C4 counterexample: a `POST /quality-checks` whose required scalar
fields (`checkId`, `checkType`, `result`) are all absent but whose
production-run reference is well-formed and dangling answers 400 with the
body `Invalid production run ID`, which names none of the absent required
fields — refuting the claim that every create's 400 body names every absent
required field. -/
theorem qc_create_missing_fields_not_named :
    qcBodyDanglingRun.checkId = none ∧
    qcBodyDanglingRun.checkType = none ∧
    qcBodyDanglingRun.result = none ∧
    (qcCreate fixtureDB qcBodyDanglingRun oidF 0).1 = .invalidRunRef ∧
    (qcCreate fixtureDB qcBodyDanglingRun oidF 0).1.status = 400 ∧
    QCCreateResp.names (qcCreate fixtureDB qcBodyDanglingRun oidF 0).1 "checkId" = false ∧
    QCCreateResp.names (qcCreate fixtureDB qcBodyDanglingRun oidF 0).1 "checkType" = false ∧
    QCCreateResp.names (qcCreate fixtureDB qcBodyDanglingRun oidF 0).1 "result" = false := by
  refine ⟨rfl, rfl, rfl, ?_, ?_, ?_, ?_, ?_⟩ <;> decide

/-- C4 amended: the Machine and ProductionRun create handlers answer 400
naming every absent required field (scenario B: `POST /machines {}` names
both `machineId` and `name`); the QualityCheck create handler checks its
three references first, so a dangling production-run reference yields a 400
naming only that reference, even when other required fields are absent. -/
theorem create_missing_fields_enumerated :
    (∀ (db : DB) (b : MBody) (fresh f : String), f ∈ mMissing b →
      (mPostV db b fresh).1.names f = true ∧ (mPostV db b fresh).1.status = 400) ∧
    (∀ (db : DB) (b : PRBody) (fresh f : String), f ∈ prMissing b →
      (prPost db b fresh).1.names f = true ∧ (prPost db b fresh).1.status = 400) ∧
    (mPostV fixtureDB ({} : MBody) oidF).1 = .missingFields ["machineId", "name"] ∧
    (∀ (db : DB) (b : QCBody) (fresh : String) (now : Nat) (p : String),
      b.productionRunId = some p → castableId p = true →
      (∀ m, b.machineId = some m → castableId m = true) →
      (∀ e, b.employeeId = some e → castableId e = true) →
      db.runs.find? (fun x => x.oid == p) = none →
      (qcCreate db b fresh now).1 = .invalidRunRef) ∧
    (∀ f, QCCreateResp.names .invalidRunRef f = false) := by
  refine ⟨?_, ?_, by decide, ?_, fun _ => rfl⟩
  · intro db b fresh f hf
    have hne : (mMissing b).isEmpty = false := by
      simp [List.isEmpty_iff]
      exact List.ne_nil_of_mem hf
    simp only [mPostV, hne, Bool.not_false, if_true]
    exact ⟨List.elem_eq_true_of_mem hf, rfl⟩
  · intro db b fresh f hf
    have hne : (prMissing b).isEmpty = false := by
      simp [List.isEmpty_iff]
      exact List.ne_nil_of_mem hf
    simp only [prPost, hne, Bool.not_false, if_true]
    exact ⟨List.elem_eq_true_of_mem hf, rfl⟩
  · intro db b fresh now p hp hcp h2 h3 hnone
    have hfr : findRefRun db.runs b.productionRunId = .ok none := by
      rw [hp]
      simp [findRefRun, findRun, hcp, hnone]
    have hfm : ∃ om, findRefMachine db.machines b.machineId = .ok om := by
      cases hbm : b.machineId with
      | none => exact ⟨none, rfl⟩
      | some m =>
        exact ⟨db.machines.find? (fun x => x.oid == m),
          by simp [findRefMachine, findMachine, h2 m hbm]⟩
    have hfe : ∃ oe, findRefEmpDoc db.employees b.employeeId = .ok oe := by
      cases hbe : b.employeeId with
      | none => exact ⟨none, rfl⟩
      | some e =>
        exact ⟨db.employees.find? (fun x => x.oid == e),
          by simp [findRefEmpDoc, findEmpDoc, h3 e hbe]⟩
    obtain ⟨om, hfm⟩ := hfm
    obtain ⟨oe, hfe⟩ := hfe
    simp [qcCreate, hfr, hfm, hfe]

/-- C4 witness: concrete instances of the amended statement. -/
theorem create_missing_fields_enumerated_witness :
    ((mPostV fixtureDB ({} : MBody) oidF).1.names "machineId" = true ∧
      (mPostV fixtureDB ({} : MBody) oidF).1.status = 400) ∧
    ((prPost fixtureDB ({} : PRBody) oidF).1.names "runId" = true ∧
      (prPost fixtureDB ({} : PRBody) oidF).1.status = 400) ∧
    (qcCreate fixtureDB qcBodyDanglingRun oidF 0).1 = .invalidRunRef := by
  refine ⟨?_, ?_, ?_⟩
  · exact create_missing_fields_enumerated.1 fixtureDB {} oidF "machineId" (by decide)
  · exact create_missing_fields_enumerated.2.1 fixtureDB {} oidF "runId" (by decide)
  · exact create_missing_fields_enumerated.2.2.2.1 fixtureDB qcBodyDanglingRun oidF 0
      oidA rfl (by decide)
      (fun m hm => by
        injection hm with h
        rw [← h]
        decide)
      (fun e he => by
        injection he with h
        rw [← h]
        decide)
      (by decide)

/-- C5 counterexample: a `PUT /quality-checks/:id` with an empty body on an
existing document succeeds with 200 and the unchanged document — there is
no EmptyPayload 400 for quality checks, refuting the claim that every
entity type rejects an empty update payload. -/
theorem qc_update_empty_payload_succeeds :
    (qcUpdate fixtureDB oidE ({} : QCBody)).1 = .updated fixtureCheck ∧
    (qcUpdate fixtureDB oidE ({} : QCBody)).1.status = 200 ∧
    (qcUpdate fixtureDB oidE ({} : QCBody)).2 = fixtureDB := by
  refine ⟨?_, ?_, ?_⟩ <;> decide

/-- C5 amended: the ProductionRun and validated Machine PUT handlers reject
an empty body with a 400 EmptyPayload-class error; the QualityCheck and
in-memory Employee update handlers accept an empty payload and answer 200
with the unchanged document; and updates validate only fields present in
the payload (an absent production-run reference is never reported
invalid). -/
theorem empty_update_payload_behaviour :
    (∀ (db : DB) (id : String), is24Hex id = true →
      (prPut db id ({} : PRBody)).1 = .emptyBody ∧
      (prPut db id ({} : PRBody)).1.status = 400 ∧
      (prPut db id ({} : PRBody)).2 = db) ∧
    (∀ (db : DB) (id : String), is24Hex id = true →
      (mPutV db id ({} : MBody)).1 = .emptyBody ∧
      (mPutV db id ({} : MBody)).1.status = 400 ∧
      (mPutV db id ({} : MBody)).2 = db) ∧
    (∀ c : QualityCheck, applyQCUpdate c {} = c) ∧
    (∀ (db : DB) (id : String) (c : QualityCheck), castableId id = true →
      db.checks.find? (fun x => x.oid == id) = some c →
      db.checks.any (fun x => x.checkId == c.checkId && x.oid != id) = false →
      (qcUpdate db id ({} : QCBody)).1 = .updated c ∧
      (qcUpdate db id ({} : QCBody)).1.status = 200) ∧
    (emPut seedEmployees "EMP-001" ({} : EmpMemBody)).1.status = 200 ∧
    (emPut seedEmployees "EMP-001" ({} : EmpMemBody)).2 = seedEmployees ∧
    (∀ (db : DB) (id : String) (b : QCBody), b.productionRunId = none →
      (qcUpdate db id b).1 ≠ .invalidRunRef) := by
  refine ⟨?_, ?_, fun c => rfl, ?_, by decide, by decide, ?_⟩
  · intro db id h
    simp [prPut, h, PRBody.isEmptyJs, PRPutResp.status]
  · intro db id h
    simp [mPutV, h, MBody.isEmptyJs, MPutResp.status]
  · intro db id c hcast hfind hnodup
    have hch : qcUpdate db id ({} : QCBody)
        = qcFindByIdAndUpdate db id ({} : QCBody) := rfl
    rw [hch]
    unfold qcFindByIdAndUpdate
    rw [show findCheck db.checks id = .ok (some c) from by
      simp [findCheck, hcast, hfind]]
    dsimp only
    rw [if_neg (by decide)]
    have hdup : (db.checks.any
        (fun x => x.checkId == (applyQCUpdate c {}).checkId && x.oid != id)) = false :=
      hnodup
    rw [if_neg (by simp [hdup])]
    exact ⟨rfl, rfl⟩
  · intro db id b hp
    simp only [qcUpdate, hp]
    exact qcUpdateAfterRun_ne_runRef db id b

/-- C5 witness: concrete instances of the amended statement. -/
theorem empty_update_payload_behaviour_witness :
    (prPut fixtureDB oidE ({} : PRBody)).1 = .emptyBody ∧
    (mPutV fixtureDB oidE ({} : MBody)).1 = .emptyBody ∧
    ((qcUpdate fixtureDB oidE ({} : QCBody)).1 = .updated fixtureCheck ∧
      (qcUpdate fixtureDB oidE ({} : QCBody)).1.status = 200) ∧
    (qcUpdate fixtureDB oidE qcUpdBodyDangling).1 ≠ .invalidRunRef := by
  refine ⟨?_, ?_, ?_, ?_⟩
  · exact (empty_update_payload_behaviour.1 fixtureDB oidE (by decide)).1
  · exact (empty_update_payload_behaviour.2.1 fixtureDB oidE (by decide)).1
  · exact empty_update_payload_behaviour.2.2.2.1 fixtureDB oidE fixtureCheck
      (by decide) (by decide) (by decide)
  · exact empty_update_payload_behaviour.2.2.2.2.2.2 fixtureDB oidE
      qcUpdBodyDangling rfl

/-- C6 counterexample: `GET /quality-checks/xyz` — a path id that does not
match the 24-hex shape — is reported as a 500 (the `CastError` lands in the
catch clause), not as an InvalidId-class 400; this refutes the claim that
every entity type's by-id routes answer 400 for malformed ids and never a
500. -/
theorem qc_get_malformed_id_is_500 :
    is24Hex "xyz" = false ∧
    qcGetById fixtureDB "xyz" = .serverError ∧
    (qcGetById fixtureDB "xyz").status = 500 := by
  refine ⟨?_, ?_, ?_⟩ <;> decide

/-- C6 amended: the InvalidId contract holds on the ProductionRun routes
and the validated Machine routes — a path id that is not 24 hex characters
answers 400 (distinct from the 404 used for not-found) and leaves the store
unchanged; the QualityCheck by-id handlers have no such pre-check, and an
uncastable id surfaces as a 500 from the catch clause. -/
theorem malformed_path_id_behaviour :
    (∀ (db : DB) (id : String) (b : PRBody), is24Hex id = false →
      prGet db id = .invalidIdFormat ∧
      (prPut db id b).1 = .invalidIdFormat ∧ (prPut db id b).2 = db ∧
      (prDelete db id).1 = .invalidIdFormat ∧ (prDelete db id).2 = db) ∧
    (∀ (db : DB) (id : String) (b : MBody), is24Hex id = false →
      mGetV db id = .invalidIdFormat ∧
      (mPutV db id b).1 = .invalidIdFormat ∧ (mPutV db id b).2 = db ∧
      (mDeleteV db id).1 = .invalidIdFormat ∧ (mDeleteV db id).2 = db) ∧
    PRGetResp.status .invalidIdFormat = 400 ∧
    PRGetResp.status .notFound = 404 ∧
    (∀ (db : DB) (id : String), castableId id = false →
      qcGetById db id = .serverError ∧
      (qcDelete db id).1 = .serverError ∧ (qcDelete db id).2 = db ∧
      (qcUpdate db id ({} : QCBody)).1 = .serverError ∧
      (qcUpdate db id ({} : QCBody)).2 = db) := by
  refine ⟨?_, ?_, rfl, rfl, ?_⟩
  · intro db id b h
    refine ⟨?_, ?_, ?_, ?_, ?_⟩ <;> simp [prGet, prPut, prDelete, h]
  · intro db id b h
    refine ⟨?_, ?_, ?_, ?_, ?_⟩ <;> simp [mGetV, mPutV, mDeleteV, h]
  · intro db id h
    have hch : qcUpdate db id ({} : QCBody)
        = qcFindByIdAndUpdate db id ({} : QCBody) := rfl
    refine ⟨?_, ?_, ?_, ?_, ?_⟩ <;>
      simp [qcGetById, qcDelete, hch, qcFindByIdAndUpdate, findCheck, h]

/-- C6 witness: the malformed id `"xyz"` on the fixture store. -/
theorem malformed_path_id_behaviour_witness :
    prGet fixtureDB "xyz" = .invalidIdFormat ∧
    mGetV fixtureDB "xyz" = .invalidIdFormat ∧
    (qcDelete fixtureDB "xyz").1 = .serverError ∧
    (qcUpdate fixtureDB "xyz" ({} : QCBody)).1 = .serverError := by
  refine ⟨?_, ?_, ?_, ?_⟩
  · exact (malformed_path_id_behaviour.1 fixtureDB "xyz" {} (by decide)).1
  · exact (malformed_path_id_behaviour.2.1 fixtureDB "xyz" {} (by decide)).1
  · exact (malformed_path_id_behaviour.2.2.2.2 fixtureDB "xyz" (by decide)).2.1
  · exact (malformed_path_id_behaviour.2.2.2.2 fixtureDB "xyz" (by decide)).2.2.2.1

/-- C7 counterexample: an employee created with the validly formatted email
`John@Example.com` is fetched back with `john@example.com` — the schema's
`lowercase` setter rewrites the submitted value, so the round trip does not
return every submitted field unchanged. -/
theorem employee_email_not_round_tripped :
    emailSchemaOk "John@Example.com" = true ∧
    empBodyMixedCase.email = some "John@Example.com" ∧
    (createEmployee emptyDB empBodyMixedCase oidA 0).1
      = .created (mkEmployeeDoc empBodyMixedCase oidA 0) ∧
    getEmployeeById (createEmployee emptyDB empBodyMixedCase oidA 0).2 oidA
      = .found (mkEmployeeDoc empBodyMixedCase oidA 0) ∧
    (mkEmployeeDoc empBodyMixedCase oidA 0).email = "john@example.com" ∧
    (mkEmployeeDoc empBodyMixedCase oidA 0).email ≠ "John@Example.com" := by
  refine ⟨?_, rfl, ?_, ?_, ?_, ?_⟩ <;> decide

/-- C7 amended: POST-then-GET returns every submitted field up to the
Mongoose setter normalization — for an Employee the trimmed string fields
and the additionally lowercased email (and exactly the submitted email when
it is already in normalized form); a Machine, whose schema has no setters,
round-trips every submitted field unchanged, plus the generated id. -/
theorem round_trip_up_to_normalization :
    (∀ (db : DB) (b : EmpBody) (fresh : String) (now : Nat) (d : EmployeeDoc)
      (db2 : DB),
      db.employees.all (fun x => x.oid != fresh) = true →
      castableId fresh = true →
      createEmployee db b fresh now = (.created d, db2) →
      getEmployeeById db2 fresh = .found d ∧
      d.oid = fresh ∧
      d.employeeId = jsTrim (b.employeeId.getD "") ∧
      d.firstName = jsTrim (b.firstName.getD "") ∧
      d.lastName = jsTrim (b.lastName.getD "") ∧
      d.email = jsToLower (jsTrim (b.email.getD "")) ∧
      d.department = b.department.getD "" ∧
      d.role = b.role.getD "" ∧
      d.shift = b.shift.getD "Morning" ∧
      d.active = b.active.getD true ∧
      (jsToLower (jsTrim (b.email.getD "")) = b.email.getD "" →
        d.email = b.email.getD "")) ∧
    (∀ (db : DB) (b : MBody) (fresh : String) (m : Machine) (db2 : DB),
      db.machines.all (fun x => x.oid != fresh) = true →
      castableId fresh = true →
      mPostPlain db b fresh = (.created m, db2) →
      mGetPlain db2 fresh = .found m ∧
      m.oid = fresh ∧
      m.machineId = b.machineId.getD "" ∧
      m.name = b.name.getD "" ∧
      m.model? = b.model ∧
      m.manufacturer? = b.manufacturer ∧
      m.status = b.status.getD "operational" ∧
      m.location? = b.location) := by
  constructor
  · intro db b fresh now d db2 hall hcast hcr
    unfold createEmployee at hcr
    dsimp only at hcr
    split_ifs at hcr
    · simp at hcr
    · simp at hcr
    · rw [Prod.mk.injEq] at hcr
      obtain ⟨h1, h2⟩ := hcr
      injection h1 with h1
      subst h1
      subst h2
      have hprev : ∀ x ∈ db.employees, (x.oid == fresh) = false := by
        intro x hx
        have := (List.all_eq_true.mp hall) x hx
        simpa using this
      refine ⟨?_, rfl, rfl, rfl, rfl, rfl, rfl, rfl, rfl, rfl, ?_⟩
      · unfold getEmployeeById findEmpDoc
        rw [if_pos hcast]
        rw [find?_append_right _ _ _ hprev]
        simp [mkEmployeeDoc]
      · intro hnorm
        exact hnorm
  · intro db b fresh m db2 hall hcast hcr
    unfold mPostPlain at hcr
    dsimp only at hcr
    split_ifs at hcr
    · simp at hcr
    · simp at hcr
    · rw [Prod.mk.injEq] at hcr
      obtain ⟨h1, h2⟩ := hcr
      injection h1 with h1
      subst h1
      subst h2
      have hprev : ∀ x ∈ db.machines, (x.oid == fresh) = false := by
        intro x hx
        have := (List.all_eq_true.mp hall) x hx
        simpa using this
      refine ⟨?_, rfl, rfl, rfl, rfl, rfl, rfl, rfl⟩
      unfold mGetPlain findMachine
      rw [if_pos hcast]
      rw [find?_append_right _ _ _ hprev]
      simp [mNewDoc]

/-- C7 witness: the amended statement instantiated on the fixture inputs. -/
theorem round_trip_up_to_normalization_witness :
    (getEmployeeById (createEmployee emptyDB empBodyMixedCase oidA 0).2 oidA
      = .found (mkEmployeeDoc empBodyMixedCase oidA 0) ∧
     (mkEmployeeDoc empBodyMixedCase oidA 0).email
      = jsToLower (jsTrim (empBodyMixedCase.email.getD ""))) ∧
    (mGetPlain (mPostPlain emptyDB mBodyFull oidB).2 oidB
      = .found (mNewDoc mBodyFull oidB) ∧
     (mNewDoc mBodyFull oidB).machineId = mBodyFull.machineId.getD "") := by
  constructor
  · have h := round_trip_up_to_normalization.1 emptyDB empBodyMixedCase oidA 0
      (mkEmployeeDoc empBodyMixedCase oidA 0)
      (createEmployee emptyDB empBodyMixedCase oidA 0).2
      (by decide) (by decide) (by decide)
    exact ⟨h.1, h.2.2.2.2.2.1⟩
  · have h := round_trip_up_to_normalization.2 emptyDB mBodyFull oidB
      (mNewDoc mBodyFull oidB)
      (mPostPlain emptyDB mBodyFull oidB).2
      (by decide) (by decide) (by decide)
    exact ⟨h.1, h.2.2.1⟩

/-- C9: the employeeId-uniqueness invariant of the in-memory employee store
fails on a reachable state: after `DELETE /employees/1`, a `POST` reuses the
internal id `"3"` (`id = (length + 1).toString()`), and a subsequent
`PUT /employees/EMP-004 {employeeId: "EMP-003"}` is accepted because the
duplicate check's self-exclusion (`emp.id !== employee.id`) also excludes
the other holder of id `"3"` — leaving two employees with employeeId
`EMP-003` even though every step succeeded. -/
theorem inMemory_employeeId_uniqueness_violated :
    dupStateA.1.status = 200 ∧
    dupStateB.1.status = 201 ∧
    dupStateC.1.status = 200 ∧
    dupStateC.2.map (fun e => e.employeeId) = ["EMP-002", "EMP-003", "EMP-003"] ∧
    ¬ (dupStateC.2.map (fun e => e.employeeId)).Nodup := by
  refine ⟨rfl, rfl, rfl, rfl, ?_⟩
  decide

end PlasticAPI
